import Mathlib

/-!
Verification of the web crawler (`web_crawler.py`, `file_saver.py`).

The development shallowly embeds the two Python modules:

* `FileSaver.save` (file_saver.py) becomes `FileSaver_save`, operating on an
  explicit `Disk` value (list of created directories and `(path, content)`
  files).  Python's unbounded `while os.path.exists(...)` loop becomes
  `findFreePath` with fuel `existing.length + 1`; the lemma
  `findFreePath_spec` together with `exists_candidate_free` shows this fuel is
  enough to reach the first non-existing candidate name, which is exactly
  where the unbounded loop stops.
* `WebCrawler.crawl` (web_crawler.py) becomes `crawlAux`/`crawl`.  The
  external collaborators (HTTP fetch, HTML parsing, URL parsing/joining) are
  parameters in `Env`: `fetch` returns a `FetchResult` (request failure,
  non-HTML content type, or a parsed HTML `Page` with title/text/links),
  `netloc` models `urlparse(u).netloc`, and `urljoin` models
  `urllib.parse.urljoin`.  Recursion is by fuel; the top entry `crawl` uses
  fuel `max_depth + 1` which exactly matches the Python recursion: whenever
  the fuel hits 0 the depth argument exceeds `max_depth`, so returning the
  state unchanged coincides with the `current_depth > max_depth` early return.
* `json.dumps(results, ensure_ascii=False, indent=4)` becomes `dumpsV`, a
  generic renderer over a JSON value type with Python's string escaping
  (`py_escape_char`) and indent-4 layout; the fuel argument bounds nesting
  depth and 3 covers the array-of-objects-of-strings shape serialized here.

The crawler state carries, besides the source's `visited_urls` and `results`,
two observation lists: `trace`, the sequence of URLs passed to
`requests.get` (fetch attempts, in order), and `saves`, the contents handed
to `FileSaver.save` by `_save_progress` (checkpoint payloads, in order).
-/

/-- One entry of `self.results`: a dict with keys Title, URL, ExtractedText. -/
structure PageRecord where
  Title : String
  URL : String
  ExtractedText : String
deriving DecidableEq, Repr

/-- What the HTML parser (BeautifulSoup) yields from a fetched page:
`soup.title` (absent gives the sentinel later), extracted text, hrefs. -/
structure Page where
  title : Option String
  text : String
  links : List String
deriving DecidableEq, Repr

/-- Outcome of `requests.get` + status/content-type checks. -/
inductive FetchResult where
  | failure : FetchResult
  | nonHtml : FetchResult
  | html : Page → FetchResult
deriving DecidableEq, Repr

/-- The file system as the crawler observes it: directories created by
`os.makedirs` and files with their written contents. -/
structure Disk where
  dirs : List String
  files : List (String × String)
deriving DecidableEq, Repr

/-- External collaborators and configuration: the HTTP fetcher, URL
resolution (`urljoin`), URL parsing (`netloc` of a URL string), whether the
underlying file write raises (`diskFails`), the working directory, and the
configured output file name. -/
structure Env where
  fetch : String → FetchResult
  urljoin : String → String → String
  netloc : String → String
  diskFails : Bool
  cwd : String
  output_file : String

/-- Mutable state of a `WebCrawler` run, plus the `trace`/`saves`
observation lists described in the header comment. -/
structure CrawlState where
  visited_urls : List String
  results : List PageRecord
  saves : List String
  trace : List String
  disk : Disk
deriving DecidableEq, Repr

/-! ## JSON serialization: `json.dumps(results, ensure_ascii=False, indent=4)` -/

/-- A JSON value (the fragment `json.dumps` is applied to here). -/
inductive JVal where
  | str : String → JVal
  | arr : List JVal → JVal
  | obj : List (String × JVal) → JVal

/-- Python `json` escaping of one character with `ensure_ascii=False`
(`ESCAPE_DCT`): backslash, quote, the named control escapes, `\u00XX` for the
remaining control characters; everything else — including all non-ASCII —
is emitted literally. -/
def py_escape_char (c : Char) : String :=
  if c = '\\' then "\\\\"
  else if c = '\"' then "\\\""
  else if c = '\n' then "\\n"
  else if c = '\r' then "\\r"
  else if c = '\t' then "\\t"
  else if c = '\x08' then "\\b"
  else if c = '\x0c' then "\\f"
  else if c.toNat < 32 then
    "\\u00" ++ String.singleton (Nat.digitChar (c.toNat / 16))
      ++ String.singleton (Nat.digitChar (c.toNat % 16))
  else String.singleton c

/-- `json.encoder.py_encode_basestring`: quote and escape a string. -/
def py_encode_basestring (s : String) : String :=
  "\"" ++ String.join (s.data.map py_escape_char) ++ "\""

/-- `indent=4` whitespace for a nesting level. -/
def jindent (lvl : Nat) : String := String.mk (List.replicate (4 * lvl) ' ')

/-- Join rendered items with a separator, as the encoder's
`separator.join(chunks)` does. -/
def joinItems (sep : String) : List String → String
  | [] => ""
  | [a] => a
  | a :: rest => a ++ sep ++ joinItems sep rest

/-- `json.dumps(v, ensure_ascii=False, indent=4)` (default separators
`(',', ': ')` apply when an indent is given).  The first argument is fuel
bounding the nesting depth, a totality device only. -/
def dumpsV : Nat → Nat → JVal → String
  | 0, _, _ => ""
  | _ + 1, _, JVal.str s => py_encode_basestring s
  | fuel + 1, lvl, JVal.arr xs =>
      match xs with
      | [] => "[]"
      | _ :: _ =>
        "[\n"
          ++ joinItems (",\n")
               (xs.map (fun x => jindent (lvl + 1) ++ dumpsV fuel (lvl + 1) x))
          ++ "\n" ++ jindent lvl ++ "]"
  | fuel + 1, lvl, JVal.obj ps =>
      match ps with
      | [] => "\x7b\x7d"
      | _ :: _ =>
        "\x7b\n"
          ++ joinItems (",\n")
               (ps.map (fun p =>
                 jindent (lvl + 1) ++ py_encode_basestring p.1 ++ ": "
                   ++ dumpsV fuel (lvl + 1) p.2))
          ++ "\n" ++ jindent lvl ++ "\x7d"

/-- A result entry as the JSON value `json.dumps` receives: a dict with the
three keys in insertion order Title, URL, ExtractedText. -/
def record_to_jval (r : PageRecord) : JVal :=
  JVal.obj
    [(("Title"), JVal.str r.Title),
     (("URL"), JVal.str r.URL),
     (("ExtractedText"), JVal.str r.ExtractedText)]

/-- `WebCrawler.get_results_as_json`:
`json.dumps(self.results, ensure_ascii=False, indent=4)`.  Fuel 3 covers the
nesting depth of the serialized value (array → object → string). -/
def get_results_as_json (rs : List PageRecord) : String :=
  dumpsV 3 0 (JVal.arr (rs.map record_to_jval))

/-- Comparison definition following the spec's words (sect. 6): one output
object, "exactly three string fields in this order: Title, URL,
ExtractedText", rendered at 4-space indentation (fields at depth two, the
object braces at depth one inside the array). -/
def spec_record_object (r : PageRecord) : String :=
  "    \x7b\n        \"Title\": " ++ py_encode_basestring r.Title
    ++ ",\n        \"URL\": " ++ py_encode_basestring r.URL
    ++ ",\n        \"ExtractedText\": " ++ py_encode_basestring r.ExtractedText
    ++ "\n    \x7d"

/-- Comparison definition following the spec's words: the objects of the
array in order, comma-separated. -/
def spec_items : List PageRecord → String
  | [] => ""
  | [r] => spec_record_object r
  | r :: rest => spec_record_object r ++ ",\n" ++ spec_items rest

/-- Comparison definition following the spec's words (sect. 6): "an ordered
array of objects", pretty-printed with 4-space indentation. -/
def spec_artifact (rs : List PageRecord) : String :=
  match rs with
  | [] => "[]"
  | _ :: _ => "[\n" ++ spec_items rs ++ "\n]"

/-! ## FileSaver (`file_saver.py`) -/

/-- `os.path.join(directory, filename)` for a plain relative filename. -/
def path_join (directory filename : String) : String :=
  directory ++ "/" ++ filename

/-- Index (from the front) of the last occurrence of `c`, if any. -/
def lastIndexOfChar (cs : List Char) (c : Char) : Option Nat :=
  ((cs.enum.filter (fun p => p.2 = c)).map Prod.fst).getLast?

/-- `os.path.splitext` (posix): split at the last dot, provided it comes
after the last path separator and the part of the base name before it is not
all dots (so `.bashrc` has no extension). -/
def splitext (p : String) : String × String :=
  let cs := p.data
  match lastIndexOfChar cs '.' with
  | none => (p, "")
  | some d =>
    let start := match lastIndexOfChar cs '/' with
      | none => 0
      | some s => s + 1
    if start ≤ d ∧ ((cs.drop start).take (d - start)).any (fun ch => ch ≠ '.')
    then (String.mk (cs.take d), String.mk (cs.drop d))
    else (p, "")

/-- Decimal rendering of a natural number, as Python's `str(int)` produces
for the loop counter. -/
def natToDecimal (n : Nat) : String :=
  if n = 0 then "0"
  else String.mk ((Nat.digits 10 n).reverse.map Nat.digitChar)

/-- The `i`-th file path tried by `FileSaver.save`'s collision loop: first
the requested name, then `base_1ext`, `base_2ext`, … (suffix inserted before
the extension). -/
def save_candidate (directory filename : String) (i : Nat) : String :=
  if i = 0 then path_join directory filename
  else
    path_join directory
      ((splitext filename).1 ++ "_" ++ natToDecimal i ++ (splitext filename).2)

/-- The `while os.path.exists(file_path)` loop: starting from candidate
index `i`, return the first candidate not in `existing`.  `fuel` is a
totality device; `existing.length + 1` steps always suffice
(`findFreePath_spec`). -/
def findFreePath (existing : List String) (cand : Nat → String) :
    Nat → Nat → String
  | i, 0 => cand i
  | i, fuel + 1 =>
    if existing.contains (cand i) then findFreePath existing cand (i + 1) fuel
    else cand i

/-- `FileSaver.save(content, directory, filename, ...)`.  `""` stands for
Python's `None`/falsy defaults (`directory or os.getcwd()`,
`filename or "output.txt"`).  Steps, in source order: reject empty content,
`os.makedirs(directory, exist_ok=True)`, resolve a non-colliding path, write
(an `OSError` from the write is re-raised — modelled by `diskFails`), return
the path actually used.  Existence is checked against previously written
file paths. -/
def FileSaver_save (diskFails : Bool) (cwd : String) (disk : Disk)
    (content : String) (directory filename : String) :
    Except String (String × Disk) :=
  if content = "" then Except.error ("Content cannot be empty.")
  else
    let directory := if directory = "" then cwd else directory
    let filename := if filename = "" then "output.txt" else filename
    let disk1 : Disk :=
      { disk with
        dirs := if disk.dirs.contains directory then disk.dirs
                else disk.dirs ++ [directory] }
    let existing := disk1.files.map Prod.fst
    let path :=
      findFreePath existing (save_candidate directory filename) 0
        (existing.length + 1)
    if diskFails then Except.error ("write failed")
    else Except.ok (path, { disk1 with files := disk1.files ++ [(path, content)] })

/-! ## WebCrawler (`web_crawler.py`) -/

/-- `WebCrawler._is_valid_url`: the candidate's netloc equals the netloc of
`base_url` and the candidate has not been visited.  Takes the ledger as an
argument and does not change it. -/
def is_valid_url (env : Env) (base_url url : String)
    (visited : List String) : Bool :=
  env.netloc url == env.netloc base_url && !(visited.contains url)

/-- The record appended for a successfully fetched HTML page:
`soup.title.string if soup.title else "No Title"`, the page URL, extracted
text. -/
def make_record (url : String) (page : Page) : PageRecord :=
  { Title := page.title.getD ("No Title")
    URL := url
    ExtractedText := page.text }

/-- `WebCrawler._save_progress`: call `FileSaver.save` on the serialized
results; any exception is caught and logged, leaving the run unaffected. -/
def save_progress (env : Env) (disk : Disk) (results : List PageRecord) :
    Disk :=
  match FileSaver_save env.diskFails env.cwd disk (get_results_as_json results)
      ("") env.output_file with
  | Except.ok (_, disk') => disk'
  | Except.error _ => disk

/-- The successful-HTML part of one `crawl` call body, after the fetch:
add the URL to `visited_urls`, append the record, and if the result count
just reached a multiple of 10, checkpoint via `_save_progress` (recording
the payload in `saves`). -/
def visit_record_step (env : Env) (st : CrawlState) (url : String)
    (page : Page) : CrawlState :=
  let results := st.results ++ [make_record url page]
  let needSave : Bool := results.length % 10 == 0
  { visited_urls := st.visited_urls ++ [url]
    results := results
    saves := if needSave then st.saves ++ [get_results_as_json results]
             else st.saves
    trace := st.trace
    disk := if needSave then save_progress env st.disk results else st.disk }

/-- `WebCrawler.crawl(url, max_depth, current_depth)`.  In source order:
return if the depth bound is exceeded or the URL was already visited;
attempt the fetch (recorded in `trace`); return on request failure; return
on non-HTML content type; record the page (`visit_record_step`); then for
each discovered link, resolve it against the page URL and recurse at
depth + 1 when `_is_valid_url` accepts it.  `fuel` is a totality device:
`crawl` below supplies `max_depth + 1` so that fuel 0 implies
`current_depth > max_depth`, making the fuel-0 equation coincide with the
depth early return. -/
def crawlAux (env : Env) (base_url : String) (max_depth : Nat) :
    Nat → String → Nat → CrawlState → CrawlState
  | 0, _, _, st => st
  | fuel + 1, url, current_depth, st =>
    if current_depth > max_depth ∨ url ∈ st.visited_urls then st
    else
      let st1 : CrawlState := { st with trace := st.trace ++ [url] }
      match env.fetch url with
      | FetchResult.failure => st1
      | FetchResult.nonHtml => st1
      | FetchResult.html page =>
        page.links.foldl
          (fun s href =>
            let full_url := env.urljoin url href
            if is_valid_url env base_url full_url s.visited_urls then
              crawlAux env base_url max_depth fuel full_url (current_depth + 1) s
            else s)
          (visit_record_step env st1 url page)

/-- A whole run of `WebCrawler(base_url, output).crawl(base_url, max_depth)`
from a fresh crawler (empty ledger and results) on initial disk `disk0`. -/
def crawl (env : Env) (base_url : String) (max_depth : Nat) (disk0 : Disk) :
    CrawlState :=
  crawlAux env base_url max_depth (max_depth + 1) base_url 0
    ⟨[], [], [], [], disk0⟩

/-- The body of the `try:` block in `__main__`: run the crawl, then pass the
serialized results to `FileSaver.save` (whose exceptions this body lets
escape). -/
def top_level_body (env : Env) (base_url : String) (max_depth : Nat)
    (disk0 : Disk) : Except String Disk :=
  let st := crawl env base_url max_depth disk0
  match FileSaver_save env.diskFails env.cwd st.disk
      (get_results_as_json st.results) ("") env.output_file with
  | Except.ok (_, disk') => Except.ok disk'
  | Except.error e => Except.error e

/-- `__main__` around the `try:` block: any exception is caught and logged,
and the run ends normally; on failure the disk is as the crawl left it. -/
def top_level_run (env : Env) (base_url : String) (max_depth : Nat)
    (disk0 : Disk) : Disk :=
  match top_level_body env base_url max_depth disk0 with
  | Except.ok disk' => disk'
  | Except.error _ => (crawl env base_url max_depth disk0).disk

/-- The checkpoint payloads a run with final result list `rs` produces: one
per multiple of 10 reached, each the serialization of the prefix accumulated
at that moment. -/
def checkpoint_contents (rs : List PageRecord) : List String :=
  (List.range (rs.length / 10)).map
    (fun i => get_results_as_json (rs.take (10 * (i + 1))))

/-- Whether the fetch of `u` succeeds with HTML content. -/
def fetch_is_html (env : Env) (u : String) : Bool :=
  match env.fetch u with
  | FetchResult.html _ => true
  | _ => false

/-- Concrete web for counterexample runs: the seed page at address a links
to an address b whose fetch fails and to a page at address c; the page at c
links to b again. -/
def exEnv1 : Env :=
  { fetch := fun u =>
      if u = "a" then FetchResult.html ⟨none, "", [("b"), ("c")]⟩
      else if u = "c" then FetchResult.html ⟨none, "", [("b")]⟩
      else FetchResult.failure
    urljoin := fun _ href => href
    netloc := fun _ => ""
    diskFails := false
    cwd := "."
    output_file := "out.json" }

/-- Concrete environment where every fetch fails and every disk write
raises. -/
def exEnv2 : Env :=
  { fetch := fun _ => FetchResult.failure
    urljoin := fun _ href => href
    netloc := fun _ => ""
    diskFails := true
    cwd := "."
    output_file := "out.json" }

/-- Concrete environment where every fetch fails; disk writes succeed. -/
def exEnv3 : Env :=
  { fetch := fun _ => FetchResult.failure
    urljoin := fun _ href => href
    netloc := fun _ => ""
    diskFails := false
    cwd := "."
    output_file := "out.json" }

/-- Concrete environment serving one link-free, title-free HTML page at
every address; disk writes succeed. -/
def exEnvSeed : Env :=
  { fetch := fun _ => FetchResult.html ⟨none, ("body"), []⟩
    urljoin := fun _ href => href
    netloc := fun _ => ""
    diskFails := false
    cwd := "."
    output_file := "out.json" }

/-- Concrete disk on which the target name and its first numbered variant
already exist. -/
def wDisk : Disk :=
  ⟨[], [(("d/f.txt"), ("old")), (("d/f_1.txt"), ("old"))]⟩

/-! ## Generic induction principles for the crawl recursion -/

/-- All crawler state components only grow by appending. -/
def ExtendsState (st st' : CrawlState) : Prop :=
  (∃ t, st'.results = st.results ++ t) ∧
  (∃ t, st'.visited_urls = st.visited_urls ++ t) ∧
  (∃ t, st'.trace = st.trace ++ t) ∧
  (∃ t, st'.saves = st.saves ++ t)

theorem extendsState_refl (st : CrawlState) : ExtendsState st st :=
  ⟨⟨[], by simp⟩, ⟨[], by simp⟩, ⟨[], by simp⟩, ⟨[], by simp⟩⟩

theorem extendsState_trans {a b c : CrawlState} (h1 : ExtendsState a b)
    (h2 : ExtendsState b c) : ExtendsState a c := by
  obtain ⟨⟨t1, e1⟩, ⟨t2, e2⟩, ⟨t3, e3⟩, ⟨t4, e4⟩⟩ := h1
  obtain ⟨⟨u1, f1⟩, ⟨u2, f2⟩, ⟨u3, f3⟩, ⟨u4, f4⟩⟩ := h2
  exact ⟨⟨t1 ++ u1, by simp [f1, e1]⟩, ⟨t2 ++ u2, by simp [f2, e2]⟩,
    ⟨t3 ++ u3, by simp [f3, e3]⟩, ⟨t4 ++ u4, by simp [f4, e4]⟩⟩

theorem foldl_pres {α β : Type} (P : α → Prop) (f : α → β → α)
    (h : ∀ s x, P s → P (f s x)) :
    ∀ (l : List β) (s : α), P s → P (l.foldl f s) := by
  intro l
  induction l with
  | nil => intro s hs; simpa using hs
  | cons x xs ih => intro s hs; simpa using ih (f s x) (h s x hs)

theorem foldl_rel {α β : Type} (E : α → α → Prop)
    (Erefl : ∀ s, E s s) (Etrans : ∀ a b c, E a b → E b c → E a c)
    (f : α → β → α) (h : ∀ s x, E s (f s x)) :
    ∀ (l : List β) (s : α), E s (l.foldl f s) := by
  intro l
  induction l with
  | nil => intro s; simpa using Erefl s
  | cons x xs ih =>
    intro s
    simpa using Etrans _ _ _ (h s x) (ih (f s x))

/-- Every `crawlAux` call only appends to results, ledger, trace and saves. -/
theorem crawlAux_extends (env : Env) (base_url : String) (max_depth : Nat) :
    ∀ fuel url d st,
      ExtendsState st (crawlAux env base_url max_depth fuel url d st) := by
  intro fuel
  induction fuel with
  | zero => intro url d st; simpa [crawlAux] using extendsState_refl st
  | succ fuel ih =>
    intro url d st
    rw [crawlAux]
    split
    · exact extendsState_refl st
    · have hstep : ExtendsState st { st with trace := st.trace ++ [url] } :=
        ⟨⟨[], by simp⟩, ⟨[], by simp⟩, ⟨[url], rfl⟩, ⟨[], by simp⟩⟩
      split
      · exact hstep
      · exact hstep
      · next page _ =>
        refine extendsState_trans
          (extendsState_trans hstep ?_)
          (foldl_rel ExtendsState extendsState_refl
            (fun _ _ _ => extendsState_trans) _ ?_ page.links _)
        · refine ⟨⟨[make_record url page], rfl⟩, ⟨[url], rfl⟩,
            ⟨[], by simp [visit_record_step]⟩, ?_⟩
          dsimp [visit_record_step]
          split
          · exact ⟨[get_results_as_json ({ st with trace := st.trace ++ [url] }.results ++ [make_record url page])], rfl⟩
          · exact ⟨[], by simp⟩
        · intro s href
          dsimp only
          split
          · exact ih _ _ _
          · exact extendsState_refl s

/-- Generic preservation principle for the crawl recursion.  `P` is the
state invariant, `Q` a precondition on visited URLs established by
`_is_valid_url` for recursive calls and assumed for the entry URL. -/
theorem crawlAux_pres (env : Env) (base_url : String) (max_depth : Nat)
    (P : CrawlState → Prop) (Q : String → Prop)
    (O1 : ∀ st url, P st →
      (env.fetch url = FetchResult.failure ∨ env.fetch url = FetchResult.nonHtml) →
      P { st with trace := st.trace ++ [url] })
    (O2 : ∀ st url page, P st → Q url → env.fetch url = FetchResult.html page →
      url ∉ st.visited_urls →
      P (visit_record_step env { st with trace := st.trace ++ [url] } url page))
    (O3 : ∀ (visited : List String) url href,
      is_valid_url env base_url (env.urljoin url href) visited = true →
      Q (env.urljoin url href)) :
    ∀ fuel url d st, Q url → P st →
      P (crawlAux env base_url max_depth fuel url d st) := by
  intro fuel
  induction fuel with
  | zero => intro url d st _ hP; simpa [crawlAux] using hP
  | succ fuel ih =>
    intro url d st hQ hP
    rw [crawlAux]
    split
    · exact hP
    · next hguard =>
      push_neg at hguard
      split
      · next hf => exact O1 st url hP (Or.inl hf)
      · next hf => exact O1 st url hP (Or.inr hf)
      · next page hf =>
        refine foldl_pres P _ ?_ page.links _
          (O2 st url page hP hQ hf hguard.2)
        intro s href hPs
        dsimp only
        split
        · next hvalid => exact ih _ _ _ (O3 _ _ _ hvalid) hPs
        · exact hPs

/-! ## Crawl invariants -/

/-- The ledger lists exactly the URLs of the accumulated records, in order,
without duplicates. -/
def LedgerInv (st : CrawlState) : Prop :=
  st.visited_urls = st.results.map PageRecord.URL ∧ st.visited_urls.Nodup

/-- Every accumulated record is on the seed's domain. -/
def ScopeInv (env : Env) (base_url : String) (st : CrawlState) : Prop :=
  ∀ r ∈ st.results, env.netloc r.URL = env.netloc base_url

/-- The checkpoint payloads are exactly those determined by the current
results: one full-prefix serialization per multiple of 10 reached. -/
def SavesInv (st : CrawlState) : Prop :=
  st.saves = checkpoint_contents st.results

/-- Fetch attempts that returned HTML are in the ledger, and no URL has two
HTML-returning fetch attempts. -/
def TraceInv (env : Env) (st : CrawlState) : Prop :=
  (∀ u ∈ st.trace, fetch_is_html env u = true → u ∈ st.visited_urls) ∧
  (st.trace.filter (fetch_is_html env)).Nodup

theorem is_valid_url_true {env : Env} {base_url url : String}
    {visited : List String} (h : is_valid_url env base_url url visited = true) :
    env.netloc url = env.netloc base_url ∧ url ∉ visited := by
  simp [is_valid_url] at h
  exact h

theorem checkpoint_contents_append (rs : List PageRecord) (r : PageRecord) :
    checkpoint_contents (rs ++ [r]) =
      if (rs.length + 1) % 10 = 0
      then checkpoint_contents rs ++ [get_results_as_json (rs ++ [r])]
      else checkpoint_contents rs := by
  unfold checkpoint_contents
  have hlen : (rs ++ [r]).length = rs.length + 1 := by simp
  rw [hlen]
  by_cases h : (rs.length + 1) % 10 = 0
  · rw [if_pos h]
    have hq : (rs.length + 1) / 10 = rs.length / 10 + 1 := by omega
    rw [hq, List.range_succ, List.map_append]
    congr 1
    · apply List.map_congr_left
      intro i hi
      have hi' : i < rs.length / 10 := List.mem_range.mp hi
      have h10 : 10 * (i + 1) ≤ rs.length := by omega
      rw [List.take_append_of_le_length h10]
    · have h10 : 10 * (rs.length / 10 + 1) = rs.length + 1 := by omega
      simp only [List.map_cons, List.map_nil, h10]
      rw [List.take_of_length_le (by simp)]
  · rw [if_neg h]
    have hq : (rs.length + 1) / 10 = rs.length / 10 := by omega
    rw [hq]
    apply List.map_congr_left
    intro i hi
    have hi' : i < rs.length / 10 := List.mem_range.mp hi
    have h10 : 10 * (i + 1) ≤ rs.length := by omega
    rw [List.take_append_of_le_length h10]

theorem ledgerInv_step (env : Env) (st : CrawlState) (url : String)
    (page : Page) (h : LedgerInv st) (hv : url ∉ st.visited_urls) :
    LedgerInv (visit_record_step env st url page) := by
  obtain ⟨heq, hnd⟩ := h
  constructor
  · simp [visit_record_step, heq, make_record]
  · simp only [visit_record_step]
    rw [(List.perm_append_singleton url st.visited_urls).nodup_iff,
      List.nodup_cons]
    exact ⟨hv, hnd⟩

theorem savesInv_step (env : Env) (st : CrawlState) (url : String)
    (page : Page) (h : SavesInv st) :
    SavesInv (visit_record_step env st url page) := by
  unfold SavesInv at h ⊢
  simp only [visit_record_step]
  rw [checkpoint_contents_append]
  have hlen : (st.results ++ [make_record url page]).length = st.results.length + 1 := by
    simp
  by_cases hmod : (st.results.length + 1) % 10 = 0
  · rw [if_pos hmod]
    have : ((st.results ++ [make_record url page]).length % 10 == 0) = true := by
      simp [hlen, hmod]
    rw [this, if_pos rfl, h]
  · rw [if_neg hmod]
    have : ((st.results ++ [make_record url page]).length % 10 == 0) = false := by
      simp [hlen, hmod]
    rw [this]
    simpa using h

theorem traceInv_step (env : Env) (st : CrawlState) (url : String)
    (page : Page) (h : TraceInv env st)
    (hf : env.fetch url = FetchResult.html page)
    (hv : url ∉ st.visited_urls) :
    TraceInv env
      (visit_record_step env { st with trace := st.trace ++ [url] } url page) := by
  obtain ⟨hmem, hnd⟩ := h
  have hhtml : fetch_is_html env url = true := by simp [fetch_is_html, hf]
  constructor
  · intro u hu hfu
    simp only [visit_record_step, List.mem_append, List.mem_singleton] at hu ⊢
    rcases hu with hu | hu
    · exact Or.inl (hmem u hu hfu)
    · exact Or.inr hu
  · simp only [visit_record_step]
    rw [List.filter_append]
    simp only [List.filter_cons, hhtml, List.filter_nil, if_true]
    rw [(List.perm_append_singleton url _).nodup_iff, List.nodup_cons]
    refine ⟨?_, hnd⟩
    intro hin
    have : url ∈ st.trace := List.mem_of_mem_filter hin
    exact hv (hmem url this hhtml)

/-- The bundled invariant of a crawl rooted at `base_url`. -/
def CrawlInv (env : Env) (base_url : String) (st : CrawlState) : Prop :=
  LedgerInv st ∧ ScopeInv env base_url st ∧ SavesInv st ∧ TraceInv env st

theorem crawlAux_crawlInv (env : Env) (base_url : String) (max_depth : Nat) :
    ∀ fuel url d st, env.netloc url = env.netloc base_url →
      CrawlInv env base_url st →
      CrawlInv env base_url (crawlAux env base_url max_depth fuel url d st) := by
  refine crawlAux_pres env base_url max_depth (CrawlInv env base_url)
    (fun url => env.netloc url = env.netloc base_url) ?_ ?_ ?_
  · rintro st url ⟨⟨hl1, hl2⟩, hs, hsv, ⟨ht1, ht2⟩⟩ hf
    have hfalse : fetch_is_html env url = false := by
      rcases hf with hf | hf <;> simp [fetch_is_html, hf]
    refine ⟨⟨hl1, hl2⟩, hs, hsv, ?_, ?_⟩
    · intro u hu hfu
      simp only [List.mem_append, List.mem_singleton] at hu
      rcases hu with hu | hu
      · exact ht1 u hu hfu
      · rw [hu] at hfu; rw [hfu] at hfalse; exact absurd hfalse (by simp)
    · show (List.filter (fetch_is_html env) (st.trace ++ [url])).Nodup
      rw [List.filter_append]
      simp [List.filter_cons, hfalse, ht2]
  · rintro st url page ⟨hl, hs, hsv, ht⟩ hq hf hv
    refine ⟨ledgerInv_step env _ url page hl hv, ?_,
      savesInv_step env _ url page hsv, traceInv_step env st url page ht hf hv⟩
    intro r hr
    simp only [visit_record_step, List.mem_append, List.mem_singleton] at hr
    rcases hr with hr | hr
    · exact hs r hr
    · rw [hr, make_record]; exact hq
  · intro visited url href hvalid
    exact (is_valid_url_true hvalid).1

/-- The bundled invariant holds of every complete crawl. -/
theorem crawl_crawlInv (env : Env) (base_url : String) (max_depth : Nat)
    (disk0 : Disk) : CrawlInv env base_url (crawl env base_url max_depth disk0) := by
  apply crawlAux_crawlInv env base_url max_depth _ _ _ _ rfl
  refine ⟨⟨rfl, List.nodup_nil⟩, ?_, ?_, ?_, List.nodup_nil⟩
  · intro r hr; cases hr
  · show ([] : List String) = checkpoint_contents []
    rfl
  · intro u hu; cases hu

theorem crawlAux_ledgerInv (env : Env) (base_url : String) (max_depth : Nat) :
    ∀ fuel url d st, LedgerInv st →
      LedgerInv (crawlAux env base_url max_depth fuel url d st) := by
  intro fuel url d st h
  refine crawlAux_pres env base_url max_depth LedgerInv (fun _ => True)
    ?_ ?_ ?_ fuel url d st trivial h
  · rintro st' url' ⟨h1, h2⟩ _; exact ⟨h1, h2⟩
  · rintro st' url' page hP _ _ hv
    exact ledgerInv_step env _ url' page hP hv
  · intro _ _ _ _; trivial

/-! ## FileSaver: collision-loop correctness -/

theorem string_append_left_cancel {a b c : String} (h : a ++ b = a ++ c) :
    b = c := by
  have h2 := congrArg String.data h
  simp only [String.data_append] at h2
  exact String.ext (List.append_cancel_left h2)

theorem string_append_right_cancel {a b c : String} (h : a ++ c = b ++ c) :
    a = b := by
  have h2 := congrArg String.data h
  simp only [String.data_append] at h2
  exact String.ext (List.append_cancel_right h2)

/-- `splitext` is a decomposition: base name and extension rebuild the
original name. -/
theorem splitext_append (p : String) : (splitext p).1 ++ (splitext p).2 = p := by
  unfold splitext
  cases h : lastIndexOfChar p.data '.' with
  | none =>
    simp only [h]
    show p ++ "" = p
    simp
  | some d =>
    simp only [h]
    split
    · show String.mk (p.data.take d) ++ String.mk (p.data.drop d) = p
      have h1 : String.mk (p.data.take d) ++ String.mk (p.data.drop d)
          = String.mk (p.data.take d ++ p.data.drop d) := rfl
      rw [h1, List.take_append_drop]
    · show p ++ "" = p
      simp

theorem natToDecimal_length_pos (n : Nat) : 0 < (natToDecimal n).length := by
  unfold natToDecimal
  split
  · decide
  · next hn =>
    show 0 < (String.mk ((Nat.digits 10 n).reverse.map Nat.digitChar)).data.length
    simp only [List.length_map, List.length_reverse]
    exact List.length_pos.mpr (Nat.digits_ne_nil_iff_ne_zero.mpr hn)

theorem digitChar_inj_lt10 {a b : Nat} (ha : a < 10) (hb : b < 10)
    (h : Nat.digitChar a = Nat.digitChar b) : a = b := by
  have key : ∀ x : Fin 10, ∀ y : Fin 10,
      Nat.digitChar x.val = Nat.digitChar y.val → x.val = y.val := by decide
  exact key ⟨a, ha⟩ ⟨b, hb⟩ h

theorem map_digitChar_inj : ∀ (l1 l2 : List Nat), (∀ x ∈ l1, x < 10) →
    (∀ x ∈ l2, x < 10) → l1.map Nat.digitChar = l2.map Nat.digitChar →
    l1 = l2
  | [], [], _, _, _ => rfl
  | [], _ :: _, _, _, h => by simp at h
  | _ :: _, [], _, _, h => by simp at h
  | a :: l1, b :: l2, h1, h2, h => by
    simp only [List.map_cons, List.cons.injEq] at h
    have hab := digitChar_inj_lt10 (h1 a (by simp)) (h2 b (by simp)) h.1
    have htl := map_digitChar_inj l1 l2 (fun x hx => h1 x (by simp [hx]))
      (fun x hx => h2 x (by simp [hx])) h.2
    rw [hab, htl]

theorem natToDecimal_inj {m n : Nat} (h : natToDecimal m = natToDecimal n) :
    m = n := by
  have zero_case : ∀ k : Nat, k ≠ 0 → natToDecimal k ≠ natToDecimal 0 := by
    intro k hk hcon
    have hd := congrArg String.data hcon
    unfold natToDecimal at hd
    rw [if_neg hk, if_pos rfl] at hd
    have hd' : (Nat.digits 10 k).reverse.map Nat.digitChar = ['0'] := hd
    have hrev : (Nat.digits 10 k).reverse = [0] := by
      apply map_digitChar_inj
      · intro x hx
        exact Nat.digits_lt_base (by norm_num) (List.mem_reverse.mp hx)
      · intro x hx
        simp at hx
        omega
      · exact hd'
    have hdig : Nat.digits 10 k = [0] := by
      have := congrArg List.reverse hrev
      simpa using this
    have : k = 0 := by
      have hk2 := Nat.ofDigits_digits 10 k
      rw [hdig] at hk2
      simpa [Nat.ofDigits] using hk2.symm
    exact hk this
  by_cases hm : m = 0 <;> by_cases hn : n = 0
  · rw [hm, hn]
  · rw [hm] at h ⊢
    exact absurd h.symm (zero_case n hn)
  · rw [hn] at h ⊢
    exact absurd h (zero_case m hm)
  · have hd := congrArg String.data h
    unfold natToDecimal at hd
    rw [if_neg hm, if_neg hn] at hd
    have hd' : (Nat.digits 10 m).reverse.map Nat.digitChar
        = (Nat.digits 10 n).reverse.map Nat.digitChar := hd
    have hrev : (Nat.digits 10 m).reverse = (Nat.digits 10 n).reverse := by
      apply map_digitChar_inj
      · intro x hx
        exact Nat.digits_lt_base (by norm_num) (List.mem_reverse.mp hx)
      · intro x hx
        exact Nat.digits_lt_base (by norm_num) (List.mem_reverse.mp hx)
      · exact hd'
    have hdig : Nat.digits 10 m = Nat.digits 10 n := by
      have := congrArg List.reverse hrev
      simpa using this
    have h1 := Nat.ofDigits_digits 10 m
    have h2 := Nat.ofDigits_digits 10 n
    rw [hdig] at h1
    rw [h2] at h1
    exact h1.symm

theorem path_join_inj {directory a b : String}
    (h : path_join directory a = path_join directory b) : a = b := by
  unfold path_join at h
  have h2 := congrArg String.data h
  simp only [String.data_append, List.append_assoc] at h2
  exact String.ext (List.append_cancel_left (List.append_cancel_left h2))

/-- Distinct loop counters produce distinct candidate paths. -/
theorem save_candidate_inj (directory filename : String) :
    Function.Injective (save_candidate directory filename) := by
  have hsplit := congrArg String.length (splitext_append filename)
  rw [String.length_append] at hsplit
  intro i j h
  unfold save_candidate at h
  by_cases hi : i = 0 <;> by_cases hj : j = 0
  · rw [hi, hj]
  · exfalso
    rw [if_pos hi, if_neg hj] at h
    have h2 := congrArg String.length (path_join_inj h)
    simp only [String.length_append] at h2
    have hpos := natToDecimal_length_pos j
    have h1 : ("_").length = 1 := rfl
    omega
  · exfalso
    rw [if_neg hi, if_pos hj] at h
    have h2 := congrArg String.length (path_join_inj h)
    simp only [String.length_append] at h2
    have hpos := natToDecimal_length_pos i
    have h1 : ("_").length = 1 := rfl
    omega
  · rw [if_neg hi, if_neg hj] at h
    have h2 := congrArg String.data (path_join_inj h)
    simp only [String.data_append, List.append_assoc] at h2
    have h3 := List.append_cancel_left (List.append_cancel_left h2)
    have h4 := List.append_cancel_right h3
    exact natToDecimal_inj (String.ext h4)

/-- Pigeonhole: among the first `existing.length + 1` candidates, at least
one is not an existing path. -/
theorem exists_candidate_free (existing : List String) (cand : Nat → String)
    (hinj : Function.Injective cand) :
    ∃ j, j ≤ existing.length ∧ cand j ∉ existing := by
  by_contra hall
  push_neg at hall
  have hsub : ((List.range (existing.length + 1)).map cand) ⊆ existing := by
    intro x hx
    simp only [List.mem_map, List.mem_range] at hx
    obtain ⟨j, hj, rfl⟩ := hx
    exact hall j (by omega)
  have hnd : ((List.range (existing.length + 1)).map cand).Nodup :=
    (List.nodup_range _).map hinj
  have hle : existing.length + 1 ≤ existing.length := by
    calc existing.length + 1
        = ((List.range (existing.length + 1)).map cand).length := by simp
      _ = ((List.range (existing.length + 1)).map cand).toFinset.card :=
          (List.toFinset_card_of_nodup hnd).symm
      _ ≤ existing.toFinset.card := by
          apply Finset.card_le_card
          intro x hx
          exact List.mem_toFinset.mpr (hsub (List.mem_toFinset.mp hx))
      _ ≤ existing.length := existing.toFinset_card_le
  omega

/-- The fuelled collision loop, given enough fuel to reach a free candidate,
returns the first free candidate — exactly where the source's unbounded
`while` loop stops. -/
theorem findFreePath_spec (existing : List String) (cand : Nat → String) :
    ∀ fuel i, (∃ j, i ≤ j ∧ j ≤ i + fuel ∧ cand j ∉ existing) →
      ∃ j, i ≤ j ∧ findFreePath existing cand i fuel = cand j ∧
        cand j ∉ existing ∧ ∀ k, i ≤ k → k < j → cand k ∈ existing := by
  intro fuel
  induction fuel with
  | zero =>
    intro i h
    obtain ⟨j, hij, hji, hfree⟩ := h
    have hj : j = i := by omega
    rw [hj] at hfree
    exact ⟨i, le_refl i, rfl, hfree,
      fun k h1 h2 => absurd (lt_of_le_of_lt h1 h2) (lt_irrefl i)⟩
  | succ fuel ih =>
    intro i h
    by_cases hmem : cand i ∈ existing
    · have hcon : existing.contains (cand i) = true := by
        simpa using hmem
      obtain ⟨j, hij, hji, hfree⟩ := h
      have hne : j ≠ i := fun e => hfree (by rw [e]; exact hmem)
      obtain ⟨j', h1, h2, h3, h4⟩ := ih (i + 1) ⟨j, by omega, by omega, hfree⟩
      refine ⟨j', by omega, ?_, h3, ?_⟩
      · rw [findFreePath, if_pos hcon]
        exact h2
      · intro k hk1 hk2
        by_cases hki : k = i
        · rw [hki]; exact hmem
        · exact h4 k (by omega) hk2
    · have hcon : existing.contains (cand i) = false := by
        simpa using hmem
      refine ⟨i, le_refl i, ?_, hmem,
        fun k h1 h2 => absurd (lt_of_le_of_lt h1 h2) (lt_irrefl i)⟩
      rw [findFreePath, if_neg (by simpa using hmem)]

/-- Successful `FileSaver.save`: it writes `content` at the first candidate
path not already on disk (the requested name, else `_1`, `_2`, … before the
extension) and returns that path; nothing existing is overwritten. -/
theorem FileSaver_save_ok (cwd : String) (disk : Disk)
    (content directory filename dir' fn' : String) (hc : content ≠ "")
    (hdir : dir' = if directory = "" then cwd else directory)
    (hfn : fn' = if filename = "" then "output.txt" else filename) :
    ∃ j d', FileSaver_save false cwd disk content directory filename
        = Except.ok (save_candidate dir' fn' j, d') ∧
      d'.files = disk.files ++ [(save_candidate dir' fn' j, content)] ∧
      save_candidate dir' fn' j ∉ disk.files.map Prod.fst ∧
      ∀ k, k < j → save_candidate dir' fn' k ∈ disk.files.map Prod.fst := by
  subst hdir hfn
  obtain ⟨j0, hj0, hfree0⟩ := exists_candidate_free (disk.files.map Prod.fst)
    (save_candidate (if directory = "" then cwd else directory)
      (if filename = "" then "output.txt" else filename))
    (save_candidate_inj _ _)
  obtain ⟨j, hij, heq, hfree, hmin⟩ := findFreePath_spec (disk.files.map Prod.fst)
    (save_candidate (if directory = "" then cwd else directory)
      (if filename = "" then "output.txt" else filename))
    ((disk.files.map Prod.fst).length + 1) 0 ⟨j0, by omega, by omega, hfree0⟩
  have key : FileSaver_save false cwd disk content directory filename =
      Except.ok (findFreePath (disk.files.map Prod.fst)
          (save_candidate (if directory = "" then cwd else directory)
            (if filename = "" then "output.txt" else filename)) 0
          ((disk.files.map Prod.fst).length + 1),
        { dirs := if disk.dirs.contains (if directory = "" then cwd else directory)
                  then disk.dirs
                  else disk.dirs ++ [if directory = "" then cwd else directory],
          files := disk.files ++ [(findFreePath (disk.files.map Prod.fst)
            (save_candidate (if directory = "" then cwd else directory)
              (if filename = "" then "output.txt" else filename)) 0
            ((disk.files.map Prod.fst).length + 1), content)] }) := by
    unfold FileSaver_save
    rw [if_neg hc]
    rfl
  rw [heq] at key
  exact ⟨j, _, key, rfl, hfree, fun k hk => hmin k (Nat.zero_le k) hk⟩

/-! ## The serialized artifact's format -/

theorem record_render_eq (r : PageRecord) :
    jindent 1 ++ dumpsV 2 1 (record_to_jval r) = spec_record_object r := by
  apply String.ext
  rw [show jindent 1 = "    " from rfl]
  simp only [dumpsV, record_to_jval, joinItems, spec_record_object,
    String.data_append, List.append_assoc]
  rw [show jindent 2 = "        " from rfl]
  rfl

theorem items_eq (rs : List PageRecord) :
    joinItems (",\n")
      ((rs.map record_to_jval).map (fun v => jindent 1 ++ dumpsV 2 1 v))
      = spec_items rs := by
  induction rs with
  | nil => rfl
  | cons r rest ih =>
    cases rest with
    | nil =>
      simp only [List.map_cons, List.map_nil, joinItems, spec_items]
      exact record_render_eq r
    | cons r2 rest2 =>
      simp only [List.map_cons, joinItems, spec_items] at ih ⊢
      rw [record_render_eq r, ih]

/-- The generic renderer, applied to a result list, produces exactly the
artifact shape the spec describes. -/
theorem serialize_eq (rs : List PageRecord) :
    get_results_as_json rs = spec_artifact rs := by
  cases rs with
  | nil => rfl
  | cons r rest =>
    have h := items_eq (r :: rest)
    simp only [List.map_cons] at h
    simp only [get_results_as_json, List.map_cons, dumpsV, spec_artifact,
      spec_items] at h ⊢
    rw [h]
    rw [show jindent 0 = "" from rfl]
    simp only [String.append_assoc]
    rfl

theorem get_results_as_json_head (rs : List PageRecord) :
    ∃ t, (get_results_as_json rs).data = '[' :: t := by
  cases rs with
  | nil => exact ⟨[']'], rfl⟩
  | cons r rest => exact ⟨_, rfl⟩

/-- The serialization is never the empty string (in particular `"[]"` for an
empty result list). -/
theorem get_results_as_json_ne_empty (rs : List PageRecord) :
    get_results_as_json rs ≠ "" := by
  obtain ⟨t, ht⟩ := get_results_as_json_head rs
  intro h
  rw [h] at ht
  exact absurd (ht : ([] : List Char) = '[' :: t) (by simp)

/-- With `ensure_ascii=False`, characters above ASCII are emitted
literally. -/
theorem py_escape_char_nonascii {c : Char} (h : 127 < c.toNat) :
    py_escape_char c = String.singleton c := by
  have h1 : c ≠ '\\' := fun e => by rw [e] at h; exact absurd h (by decide)
  have h2 : c ≠ '\"' := fun e => by rw [e] at h; exact absurd h (by decide)
  have h3 : c ≠ '\n' := fun e => by rw [e] at h; exact absurd h (by decide)
  have h4 : c ≠ '\r' := fun e => by rw [e] at h; exact absurd h (by decide)
  have h5 : c ≠ '\t' := fun e => by rw [e] at h; exact absurd h (by decide)
  have h6 : c ≠ '\x08' := fun e => by rw [e] at h; exact absurd h (by decide)
  have h7 : c ≠ '\x0c' := fun e => by rw [e] at h; exact absurd h (by decide)
  unfold py_escape_char
  rw [if_neg h1, if_neg h2, if_neg h3, if_neg h4, if_neg h5, if_neg h6,
    if_neg h7, if_neg (by omega : ¬ c.toNat < 32)]

/-! ## Per-visit behaviour -/

theorem foldl_self {α β : Type} (f : α → β → α) (hf : ∀ s x, f s x = s) :
    ∀ (l : List β) (s : α), l.foldl f s = s := by
  intro l
  induction l with
  | nil => intro s; rfl
  | cons x xs ih => intro s; rw [List.foldl_cons, hf]; exact ih s

/-- A visit beyond the depth bound returns the state untouched (no fetch,
no record, no link expansion). -/
theorem crawlAux_depth_exceeded (env : Env) (base_url : String)
    (max_depth fuel current_depth : Nat) (url : String) (st : CrawlState)
    (h : current_depth > max_depth) :
    crawlAux env base_url max_depth fuel url current_depth st = st := by
  cases fuel with
  | zero => rfl
  | succ fuel => rw [crawlAux, if_pos (Or.inl h)]

/-- A visit within the depth bound of an unvisited URL attempts the fetch:
the URL is appended to the trace right away. -/
theorem crawlAux_attempts_fetch (env : Env) (base_url : String)
    (max_depth fuel current_depth : Nat) (url : String) (st : CrawlState)
    (hd : current_depth ≤ max_depth) (hv : url ∉ st.visited_urls) :
    ∃ t, (crawlAux env base_url max_depth (fuel + 1) url current_depth st).trace
      = st.trace ++ [url] ++ t := by
  rw [crawlAux, if_neg (by push_neg; exact ⟨by omega, hv⟩)]
  cases hf : env.fetch url with
  | failure => simp only [hf]; exact ⟨[], by simp⟩
  | nonHtml => simp only [hf]; exact ⟨[], by simp⟩
  | html page =>
    simp only [hf]
    have hext := foldl_rel ExtendsState extendsState_refl
      (fun _ _ _ => extendsState_trans)
      (fun (s : CrawlState) (href : String) =>
        if is_valid_url env base_url (env.urljoin url href) s.visited_urls then
          crawlAux env base_url max_depth fuel (env.urljoin url href)
            (current_depth + 1) s
        else s)
      (fun s href => by
        dsimp only
        split
        · exact crawlAux_extends env base_url max_depth fuel _ _ s
        · exact extendsState_refl s)
      page.links
      (visit_record_step env { st with trace := st.trace ++ [url] } url page)
    obtain ⟨t, ht⟩ := hext.2.2.1
    exact ⟨t, ht⟩

/-- With a raising write, `FileSaver.save` on non-empty content fails after
name resolution. -/
theorem FileSaver_save_diskFails (cwd : String) (disk : Disk)
    (content directory filename : String) (hc : content ≠ "") :
    FileSaver_save true cwd disk content directory filename
      = Except.error ("write failed") := by
  unfold FileSaver_save
  rw [if_neg hc]
  rfl

/-! ## The claims -/

/-- C1 counterexample: the claim that every URL is fetched at most once
(because it is ledgered when accepted, before the fetch) is false of the
code: in the concrete web `exEnv1` the URL b, whose fetch fails, is fetched
twice — once discovered from the seed a and again from c — because the
code adds a URL to `visited_urls` only after a successful HTML fetch. -/
theorem crawl_refetches_failed_url :
    ((crawl exEnv1 ("a") 2 ⟨[], []⟩).trace.count ("b")) = 2 := by decide

/-- C1 (amended): per traversal, each URL produces at most one PageRecord
and is the subject of at most one HTML-returning (successful) fetch
attempt; only fetch-failed or non-HTML URLs can be fetched again, since the
ledger is updated only after a successful HTML fetch. -/
theorem crawl_at_most_one_successful_fetch_per_url (env : Env)
    (base_url : String) (max_depth : Nat) (disk0 : Disk) :
    ((crawl env base_url max_depth disk0).results.map PageRecord.URL).Nodup ∧
    ((crawl env base_url max_depth disk0).trace.filter
      (fetch_is_html env)).Nodup := by
  obtain ⟨⟨hl1, hl2⟩, _, _, _, ht2⟩ := crawl_crawlInv env base_url max_depth disk0
  exact ⟨hl1 ▸ hl2, ht2⟩

/-- C2 counterexample: with every disk write raising (`exEnv2`), the final
persistence write fails inside the top-level try body, yet the top-level run
returns normally with the crawl's disk — the persistence failure is not
surfaced to any caller. -/
theorem persistence_failure_swallowed :
    (top_level_body exEnv2 ("a") 1 ⟨[], []⟩).isOk = false ∧
    top_level_run exEnv2 ("a") 1 ⟨[], []⟩ = ⟨[], []⟩ := by decide

/-- C2 (amended): persistence failures are absorbed, not propagated: a
failing checkpoint write makes `_save_progress` return with the disk
unchanged, a failing final write is caught by the top-level handler which
completes normally, and when every write raises the final write does fail
(so the absorbed case is the one that occurs). -/
theorem persistence_failures_absorbed (env : Env) (base_url : String)
    (max_depth : Nat) (disk0 disk : Disk) (rs : List PageRecord) (e : String) :
    (FileSaver_save env.diskFails env.cwd disk (get_results_as_json rs) ("")
        env.output_file = Except.error e → save_progress env disk rs = disk) ∧
    (top_level_body env base_url max_depth disk0 = Except.error e →
      top_level_run env base_url max_depth disk0
        = (crawl env base_url max_depth disk0).disk) ∧
    (env.diskFails = true →
      (top_level_body env base_url max_depth disk0).isOk = false) := by
  refine ⟨?_, ?_, ?_⟩
  · intro he
    simp only [save_progress, he]
  · intro he
    simp only [top_level_run, he]
  · intro hdf
    have hsave := FileSaver_save_diskFails env.cwd
      (crawl env base_url max_depth disk0).disk
      (get_results_as_json (crawl env base_url max_depth disk0).results) ("")
      env.output_file (get_results_as_json_ne_empty _)
    rw [← hdf] at hsave
    simp only [top_level_body, hsave]
    rfl

/-- C2 witness: the amended behaviour at a concrete failing environment. -/
theorem persistence_failures_absorbed_witness :
    save_progress exEnv2 ⟨[], []⟩ [] = ⟨[], []⟩ ∧
    top_level_run exEnv2 ("a") 1 ⟨[], []⟩ = (crawl exEnv2 ("a") 1 ⟨[], []⟩).disk ∧
    (top_level_body exEnv2 ("a") 1 ⟨[], []⟩).isOk = false :=
  ⟨(persistence_failures_absorbed exEnv2 ("a") 1 ⟨[], []⟩ ⟨[], []⟩ []
      ("write failed")).1 rfl,
   (persistence_failures_absorbed exEnv2 ("a") 1 ⟨[], []⟩ ⟨[], []⟩ []
      ("write failed")).2.1 rfl,
   (persistence_failures_absorbed exEnv2 ("a") 1 ⟨[], []⟩ ⟨[], []⟩ []
      ("write failed")).2.2 rfl⟩

/-- C3: the depth cutoff is inclusive of `max_depth`: a visit with
`current_depth > max_depth` is pruned outright (state returned untouched);
a visit of an unvisited URL with `current_depth ≤ max_depth` attempts the
fetch; and a crawl with `max_depth = 0` of a seed serving fetchable HTML
yields exactly the seed's record. -/
theorem depth_cutoff_inclusive (env : Env) (base_url url : String)
    (max_depth fuel current_depth : Nat) (st : CrawlState)
    (page : Page) (disk0 : Disk) :
    (current_depth > max_depth →
      crawlAux env base_url max_depth fuel url current_depth st = st) ∧
    (current_depth ≤ max_depth → url ∉ st.visited_urls →
      ∃ t, (crawlAux env base_url max_depth (fuel + 1) url current_depth st).trace
        = st.trace ++ [url] ++ t) ∧
    (env.fetch base_url = FetchResult.html page →
      (crawl env base_url 0 disk0).results = [make_record base_url page]) := by
  refine ⟨fun h => crawlAux_depth_exceeded env base_url max_depth fuel
      current_depth url st h,
    fun hd hv => crawlAux_attempts_fetch env base_url max_depth fuel
      current_depth url st hd hv, fun hf => ?_⟩
  show (crawlAux env base_url 0 1 base_url 0 ⟨[], [], [], [], disk0⟩).results
    = [make_record base_url page]
  rw [crawlAux, if_neg (by simp)]
  simp only [hf]
  rw [foldl_self]
  · simp [visit_record_step]
  · intro s x
    dsimp only
    split
    · rfl
    · rfl

/-- C3 witness: the three conjuncts at a concrete one-page site. -/
theorem depth_cutoff_inclusive_witness :
    crawlAux exEnvSeed ("s") 0 5 ("s") 1 ⟨[], [], [], [], ⟨[], []⟩⟩
      = ⟨[], [], [], [], ⟨[], []⟩⟩ ∧
    (∃ t, (crawlAux exEnvSeed ("s") 0 3 ("s") 0
      ⟨[], [], [], [], ⟨[], []⟩⟩).trace = [] ++ [("s")] ++ t) ∧
    (crawl exEnvSeed ("s") 0 ⟨[], []⟩).results
      = [make_record ("s") ⟨none, ("body"), []⟩] :=
  ⟨(depth_cutoff_inclusive exEnvSeed ("s") ("s") 0 5 1
      ⟨[], [], [], [], ⟨[], []⟩⟩ ⟨none, ("body"), []⟩ ⟨[], []⟩).1 (by decide),
   (depth_cutoff_inclusive exEnvSeed ("s") ("s") 0 2 0
      ⟨[], [], [], [], ⟨[], []⟩⟩ ⟨none, ("body"), []⟩ ⟨[], []⟩).2.1
      (by decide) (by decide),
   (depth_cutoff_inclusive exEnvSeed ("s") ("s") 0 5 1
      ⟨[], [], [], [], ⟨[], []⟩⟩ ⟨none, ("body"), []⟩ ⟨[], []⟩).2.2 rfl⟩

/-- C4: scope containment — every record of a crawl rooted at `base_url`
has a netloc equal (as a string) to the seed's netloc, and `_is_valid_url`
accepts a candidate exactly when its netloc equals the seed's netloc and it
is not in the ledger (which it receives as a value and does not change). -/
theorem scope_containment (env : Env) (base_url url : String)
    (max_depth : Nat) (disk0 : Disk) (visited : List String) :
    (∀ r ∈ (crawl env base_url max_depth disk0).results,
      env.netloc r.URL = env.netloc base_url) ∧
    (is_valid_url env base_url url visited = true ↔
      (env.netloc url = env.netloc base_url ∧ url ∉ visited)) := by
  refine ⟨(crawl_crawlInv env base_url max_depth disk0).2.1, ?_, ?_⟩
  · exact is_valid_url_true
  · rintro ⟨h1, h2⟩
    simp [is_valid_url, h1, h2]

/-- C4 witness: the conjuncts at a concrete crawl and candidate. -/
theorem scope_containment_witness :
    exEnvSeed.netloc (PageRecord.URL ⟨("No Title"), ("s"), ("body")⟩)
      = exEnvSeed.netloc ("s") ∧
    is_valid_url exEnvSeed ("s") ("u") [] = true :=
  ⟨(scope_containment exEnvSeed ("s") ("u") 0 ⟨[], []⟩ []).1
      ⟨("No Title"), ("s"), ("body")⟩ (by decide),
   (scope_containment exEnvSeed ("s") ("u") 0 ⟨[], []⟩ []).2.mpr
      (by constructor <;> decide)⟩

/-- C5: checkpoint cadence and completeness — the checkpoint payloads of a
run are exactly one per multiple of 10 reached, each the serialization of
the full accumulator at that moment (the 10·(i+1)-record prefix of the
final results), and (with working writes) the final write of the top-level
run puts the serialization of all accumulated records on disk as the last
file. -/
theorem checkpoint_cadence_and_final_write (env : Env) (base_url : String)
    (max_depth : Nat) (disk0 : Disk) (h : env.diskFails = false) :
    (crawl env base_url max_depth disk0).saves
      = checkpoint_contents (crawl env base_url max_depth disk0).results ∧
    ∃ p, ((top_level_run env base_url max_depth disk0).files).getLast?
      = some (p, get_results_as_json (crawl env base_url max_depth disk0).results) := by
  refine ⟨(crawl_crawlInv env base_url max_depth disk0).2.2.1, ?_⟩
  obtain ⟨j, d', hok, hfiles, hfree, hmin⟩ := FileSaver_save_ok env.cwd
    (crawl env base_url max_depth disk0).disk
    (get_results_as_json (crawl env base_url max_depth disk0).results) ("")
    env.output_file env.cwd
    (if env.output_file = "" then ("output.txt") else env.output_file)
    (get_results_as_json_ne_empty _) (by simp) rfl
  rw [← h] at hok
  refine ⟨save_candidate env.cwd
    (if env.output_file = "" then ("output.txt") else env.output_file) j, ?_⟩
  simp only [top_level_run, top_level_body, hok]
  rw [hfiles]
  exact List.getLast?_concat _

/-- C5 witness: at a concrete site with no records, the saves trace matches
and the final write puts `"[]"` on disk. -/
theorem checkpoint_cadence_and_final_write_witness :
    (crawl exEnv3 ("a") 1 ⟨[], []⟩).saves
      = checkpoint_contents (crawl exEnv3 ("a") 1 ⟨[], []⟩).results ∧
    ∃ p, ((top_level_run exEnv3 ("a") 1 ⟨[], []⟩).files).getLast?
      = some (p, get_results_as_json (crawl exEnv3 ("a") 1 ⟨[], []⟩).results) :=
  checkpoint_cadence_and_final_write exEnv3 ("a") 1 ⟨[], []⟩ rfl

/-- C6: a URL whose fetch fails or returns non-HTML degrades to a skip —
no record is appended, the ledger, checkpoint payloads and disk are
untouched, and at most the fetch attempt itself is logged in the trace
(no links from it are followed); the visit returns normally. -/
theorem fetch_failure_degrades_to_skip (env : Env) (base_url : String)
    (max_depth fuel current_depth : Nat) (url : String) (st : CrawlState)
    (h : env.fetch url = FetchResult.failure ∨
      env.fetch url = FetchResult.nonHtml) :
    (crawlAux env base_url max_depth (fuel + 1) url current_depth st).results
      = st.results ∧
    (crawlAux env base_url max_depth (fuel + 1) url current_depth st).visited_urls
      = st.visited_urls ∧
    (crawlAux env base_url max_depth (fuel + 1) url current_depth st).saves
      = st.saves ∧
    (crawlAux env base_url max_depth (fuel + 1) url current_depth st).disk
      = st.disk ∧
    ((crawlAux env base_url max_depth (fuel + 1) url current_depth st).trace
        = st.trace ∨
      (crawlAux env base_url max_depth (fuel + 1) url current_depth st).trace
        = st.trace ++ [url]) := by
  rw [crawlAux]
  split
  · exact ⟨rfl, rfl, rfl, rfl, Or.inl rfl⟩
  · rcases h with hf | hf <;> simp [hf]

/-- C6 witness: a concrete skipped visit. -/
theorem fetch_failure_degrades_to_skip_witness :
    (crawlAux exEnv3 ("a") 1 2 ("u") 0 ⟨[], [], [], [], ⟨[], []⟩⟩).results = [] ∧
    (crawlAux exEnv3 ("a") 1 2 ("u") 0
        ⟨[], [], [], [], ⟨[], []⟩⟩).visited_urls = [] ∧
    (crawlAux exEnv3 ("a") 1 2 ("u") 0 ⟨[], [], [], [], ⟨[], []⟩⟩).saves = [] ∧
    (crawlAux exEnv3 ("a") 1 2 ("u") 0 ⟨[], [], [], [], ⟨[], []⟩⟩).disk
      = ⟨[], []⟩ ∧
    ((crawlAux exEnv3 ("a") 1 2 ("u") 0 ⟨[], [], [], [], ⟨[], []⟩⟩).trace = [] ∨
      (crawlAux exEnv3 ("a") 1 2 ("u") 0 ⟨[], [], [], [], ⟨[], []⟩⟩).trace
        = [] ++ [("u")]) :=
  fetch_failure_degrades_to_skip exEnv3 ("a") 1 1 0 ("u")
    ⟨[], [], [], [], ⟨[], []⟩⟩ (Or.inl rfl)

/-- C7: collision policy of `FileSaver.save` — when the target name (or any
earlier numbered variant) already exists, the save does not overwrite: it
tries `name`, `base_1ext`, `base_2ext`, … in order, writes the content at
the first non-existing candidate, and returns that path; a second save
against the resulting disk necessarily picks a different path, so repeated
checkpoint saves in one run produce distinct numbered files. -/
theorem file_saver_collision_policy (disk : Disk)
    (cwd directory filename content : String) (hc : content ≠ "")
    (hdir : directory ≠ "") (hfn : filename ≠ "") :
    ∃ j d', FileSaver_save false cwd disk content directory filename
        = Except.ok (save_candidate directory filename j, d') ∧
      save_candidate directory filename j ∉ disk.files.map Prod.fst ∧
      (∀ k, k < j →
        save_candidate directory filename k ∈ disk.files.map Prod.fst) ∧
      d'.files = disk.files ++ [(save_candidate directory filename j, content)] ∧
      (∀ p2 d2, FileSaver_save false cwd d' content directory filename
          = Except.ok (p2, d2) → p2 ≠ save_candidate directory filename j) := by
  obtain ⟨j, d', hok, hfiles, hfree, hmin⟩ := FileSaver_save_ok cwd disk content
    directory filename directory filename hc (by rw [if_neg hdir])
    (by rw [if_neg hfn])
  refine ⟨j, d', hok, hfree, hmin, hfiles, ?_⟩
  intro p2 d2 hok2
  obtain ⟨j2, d2', hok2', hfiles2, hfree2, hmin2⟩ := FileSaver_save_ok cwd d'
    content directory filename directory filename hc (by rw [if_neg hdir])
    (by rw [if_neg hfn])
  rw [hok2'] at hok2
  have hp2 : p2 = save_candidate directory filename j2 := by
    cases hok2
    rfl
  have hmem : save_candidate directory filename j ∈ d'.files.map Prod.fst := by
    rw [hfiles]
    simp
  intro e
  rw [hp2] at e
  rw [e] at hfree2
  exact hfree2 hmem

/-- C7 witness: on a disk already holding `d/f.txt` and `d/f_1.txt`, the
next save lands on a fresh numbered name. -/
theorem file_saver_collision_policy_witness :
    ∃ j d', FileSaver_save false (".") wDisk ("new") ("d") ("f.txt")
        = Except.ok (save_candidate ("d") ("f.txt") j, d') ∧
      save_candidate ("d") ("f.txt") j ∉ wDisk.files.map Prod.fst ∧
      (∀ k, k < j →
        save_candidate ("d") ("f.txt") k ∈ wDisk.files.map Prod.fst) ∧
      d'.files = wDisk.files ++ [(save_candidate ("d") ("f.txt") j, ("new"))] ∧
      (∀ p2 d2, FileSaver_save false (".") d' ("new") ("d") ("f.txt")
          = Except.ok (p2, d2) → p2 ≠ save_candidate ("d") ("f.txt") j) :=
  file_saver_collision_policy wDisk (".") ("d") ("f.txt") ("new")
    (by decide) (by decide) (by decide)

/-- C8: the serialized result set is exactly the spec's artifact — an
ordered array of objects with precisely the fields Title, URL,
ExtractedText in that order, 4-space-indented; characters above ASCII are
emitted literally by the escaper; and a title-less page is recorded with
the sentinel "No Title". -/
theorem serialization_format (rs : List PageRecord) (c : Char)
    (url : String) (page : Page) :
    get_results_as_json rs = spec_artifact rs ∧
    (127 < c.toNat → py_escape_char c = String.singleton c) ∧
    (page.title = none → (make_record url page).Title = ("No Title")) := by
  refine ⟨serialize_eq rs, fun h => py_escape_char_nonascii h, fun h => ?_⟩
  simp [make_record, h]

/-- C8 witness: the format equality on a record with a non-ASCII title, the
literal pass-through of a non-ASCII character, and the sentinel. -/
theorem serialization_format_witness :
    get_results_as_json [⟨("Té"), ("u"), ("x")⟩]
      = spec_artifact [⟨("Té"), ("u"), ("x")⟩] ∧
    py_escape_char ('é') = String.singleton ('é') ∧
    (make_record ("u") ⟨none, ("t"), []⟩).Title = ("No Title") :=
  ⟨(serialization_format [⟨("Té"), ("u"), ("x")⟩] ('é') ("u")
      ⟨none, ("t"), []⟩).1,
   (serialization_format [⟨("Té"), ("u"), ("x")⟩] ('é') ("u")
      ⟨none, ("t"), []⟩).2.1 (by decide),
   (serialization_format [⟨("Té"), ("u"), ("x")⟩] ('é') ("u")
      ⟨none, ("t"), []⟩).2.2 rfl⟩

/-- C9: `FileSaver.save` rejects empty content with a ValueError before
touching the file system (the check precedes `os.makedirs` and the write,
and the error return carries no disk change); with non-empty content every
file it adds holds exactly that content, so it never writes an empty file;
and serialized result lists are never empty strings (`"[]"` for no
records), so the crawler's calls never hit the branch. -/
theorem file_saver_empty_content (df : Bool)
    (cwd directory filename content : String) (disk : Disk)
    (rs : List PageRecord) :
    FileSaver_save df cwd disk ( "" ) directory filename
      = Except.error ("Content cannot be empty.") ∧
    (content ≠ "" → ∀ p d', FileSaver_save false cwd disk content directory
        filename = Except.ok (p, d') →
      ∀ pc ∈ d'.files, pc ∈ disk.files ∨ pc.2 = content) ∧
    get_results_as_json rs ≠ "" := by
  refine ⟨rfl, ?_, get_results_as_json_ne_empty rs⟩
  intro hc p d' hok pc hpc
  obtain ⟨j, d2, hok2, hfiles, hfree, hmin⟩ := FileSaver_save_ok cwd disk
    content directory filename _ _ hc rfl rfl
  rw [hok2] at hok
  have hd : d2 = d' := by cases hok; rfl
  rw [← hd, hfiles] at hpc
  rcases List.mem_append.mp hpc with hmem | hmem
  · exact Or.inl hmem
  · right
    rw [List.mem_singleton.mp hmem]

/-- C9 witness: the rejection, the written-content property at a concrete
save, and the non-empty serialization of the empty result list. -/
theorem file_saver_empty_content_witness :
    FileSaver_save false (".") (⟨[], []⟩ : Disk) ( "" ) ("d") ("f.txt")
      = Except.error ("Content cannot be empty.") ∧
    (∀ pc ∈ (Disk.mk [("d")] [(("d/f.txt"), ("x"))]).files,
      pc ∈ (⟨[], []⟩ : Disk).files ∨ pc.2 = ("x")) ∧
    get_results_as_json [] ≠ "" :=
  ⟨(file_saver_empty_content false (".") ("d") ("f.txt") ("x") ⟨[], []⟩ []).1,
   fun pc hpc => (file_saver_empty_content false (".") ("d") ("f.txt") ("x")
      ⟨[], []⟩ []).2.1 (by decide) ("d/f.txt")
      (Disk.mk [("d")] [(("d/f.txt"), ("x"))]) rfl pc hpc,
   (file_saver_empty_content false (".") ("d") ("f.txt") ("x") ⟨[], []⟩ []).2.2⟩

/-- C10: at every visit boundary the ledger lists exactly the URLs of the
accumulated records (`LedgerInv` is preserved by every `crawlAux` call from
any state satisfying it), and for a complete crawl the ledger and the
record URLs agree as sets and in size: a URL enters the ledger only
together with its successful HTML record, never on a failed or non-HTML
fetch. -/
theorem ledger_matches_accumulator (env : Env) (base_url url : String)
    (max_depth fuel current_depth : Nat) (st : CrawlState) (disk0 : Disk)
    (h : LedgerInv st) :
    LedgerInv (crawlAux env base_url max_depth fuel url current_depth st) ∧
    (∀ u, u ∈ (crawl env base_url max_depth disk0).visited_urls ↔
      u ∈ (crawl env base_url max_depth disk0).results.map PageRecord.URL) ∧
    (crawl env base_url max_depth disk0).visited_urls.length
      = (crawl env base_url max_depth disk0).results.length := by
  have h2 := crawlAux_ledgerInv env base_url max_depth fuel url current_depth st h
  have h3 := (crawl_crawlInv env base_url max_depth disk0).1
  refine ⟨h2, fun u => by rw [h3.1], ?_⟩
  rw [h3.1]
  simp

/-- C10 witness: the preservation instantiated at a concrete boundary. -/
theorem ledger_matches_accumulator_witness :
    LedgerInv (crawlAux exEnv1 ("a") 2 3 ("a") 0 ⟨[], [], [], [], ⟨[], []⟩⟩) ∧
    (∀ u, u ∈ (crawl exEnv1 ("a") 2 ⟨[], []⟩).visited_urls ↔
      u ∈ (crawl exEnv1 ("a") 2 ⟨[], []⟩).results.map PageRecord.URL) ∧
    (crawl exEnv1 ("a") 2 ⟨[], []⟩).visited_urls.length
      = (crawl exEnv1 ("a") 2 ⟨[], []⟩).results.length :=
  ledger_matches_accumulator exEnv1 ("a") ("a") 2 3 0
    ⟨[], [], [], [], ⟨[], []⟩⟩ ⟨[], []⟩ ⟨rfl, List.nodup_nil⟩
